import Mathlib

/-!
Verification development for the FLIR thermal-image repository
(`src/FLIR_images.py`).  The Python module is shallowly embedded:

* Python dicts become association lists `List (String × α)` with
  first-match lookup; `d[k] = v` becomes `dictInsert` (overwrite the
  first occurrence, else append), matching CPython insertion-order
  semantics; `d[k]` becomes `dictGet`, which models `KeyError k` as
  `Except.error k`.
* numpy 2-D arrays become `List (List ℝ)`; element-wise numpy
  arithmetic becomes `List.map` of the scalar operation.
* IEEE doubles are modelled by `ℝ`; `np.log` and `np.exp` by
  `Real.log` and `Real.exp`.
* the `.astype('uint16')` cast is C truncation toward zero followed by
  reduction modulo 2^16 (`castUInt16`).
* `numpy`'s reductions `.min()` / `.max()` raise `ValueError` on a
  zero-size array; this is modelled by `Except.error` in `npMin` /
  `npMax`.  (`mean`/`std`/`median` of an empty array would produce NaN,
  which `ℝ` cannot represent; they are never reached on the empty path
  because the `min` reduction fails first, exactly as in the source.)
-/

/-- A 2-D array (list of rows), as produced by `tifffile.imread`. -/
abbrev Mat (α : Type) := List (List α)

/-- Python dict lookup (first matching key). -/
def dictLookup {α : Type} : List (String × α) → String → Option α
  | [], _ => none
  | (k, v) :: t, key => if k = key then some v else dictLookup t key

/-- Python subscript `d[key]`: value, or `KeyError key`. -/
def dictGet {α : Type} (d : List (String × α)) (key : String) : Except String α :=
  match dictLookup d key with
  | some v => Except.ok v
  | none => Except.error key

/-- Python assignment `d[key] = v`: overwrite in place, else append. -/
def dictInsert {α : Type} : List (String × α) → String → α → List (String × α)
  | [], key, v => [(key, v)]
  | (k, w) :: t, key, v =>
      if k = key then (key, v) :: t else (k, w) :: dictInsert t key v

/-- Python `s.lower()` (per character). -/
def strLower (s : String) : String := String.mk (s.toList.map Char.toLower)

/-- Python slice `s[n:]` (drop the first `n` characters). -/
def strDrop (s : String) (n : Nat) : String := String.mk (s.toList.drop n)

/-- Does `pat` occur at the head of `l`? -/
def headMatch {α : Type} [DecidableEq α] : List α → List α → Bool
  | [], _ => true
  | _ :: _, [] => false
  | a :: as, b :: bs => a = b && headMatch as bs

/-- Does `pat` occur as a contiguous sublist of `l`?  Models Python
`pat in s` on strings (via their character lists). -/
def subOccurs {α : Type} [DecidableEq α] : List α → List α → Bool
  | pat, [] => pat.isEmpty
  | pat, b :: bs => headMatch pat (b :: bs) || subOccurs pat bs

/-- Python `"planck" in key.lower()` from `FLIR_image.get_planck_coeffs`. -/
def planckTag (key : String) : Bool :=
  subOccurs "planck".toList (strLower key).toList

/-- `FLIR_image.get_planck_coeffs` (src/FLIR_images.py lines 98-103):
iterate over the metadata items and store every tag whose name contains
`"planck"` case-insensitively under the tag name with its first 11
characters removed. -/
def get_planck_coeffs {α : Type} (metadata : List (String × α)) : List (String × α) :=
  metadata.foldl
    (fun acc kv => if planckTag kv.1 then dictInsert acc (strDrop kv.1 11) kv.2 else acc)
    []

/-- `FLIR_image.get_position` (src/FLIR_images.py lines 82-95): set the
three GPS tags to `None` in the metadata dict, then build the position
dict from them (each guarded by a key-membership test, as in the
source).  Returns the (mutated) metadata together with the position. -/
def get_position {α : Type} (metadata : List (String × Option α)) :
    List (String × Option α) × List (String × Option α) :=
  let md := dictInsert metadata "EXIF:GPSLatitude" none
  let md := dictInsert md "EXIF:GPSLongitude" none
  let md := dictInsert md "EXIF:GPSAltitude" none
  let pos : List (String × Option α) := []
  let pos := match dictLookup md "EXIF:GPSLatitude" with
    | some v => dictInsert pos "latitude" v
    | none => pos
  let pos := match dictLookup md "EXIF:GPSLongitude" with
    | some v => dictInsert pos "longitude" v
    | none => pos
  let pos := match dictLookup md "EXIF:GPSAltitude" with
    | some v => dictInsert pos "altitude" v
    | none => pos
  (md, pos)

noncomputable section

/-- Module-level example Planck constants (src/FLIR_images.py line 26):
`planck = {'R1': 385517, 'B': 1428, 'F': 1, 'O': -72, 'R2': 1}`. -/
def planck : List (String × ℝ) :=
  [("R1", 385517), ("B", 1428), ("F", 1), ("O", -72), ("R2", 1)]

/-- `raw_to_temperature` (src/FLIR_images.py lines 185-206): read the
five Planck coefficients from the dict (in source order `B`, `F`, `O`,
`R1`, `R2`; a missing key is a `KeyError`) and compute element-wise
`B / log(R1 / (R2*(S + O)) + F)`. -/
def raw_to_temperature (S : Mat ℝ) (planck : List (String × ℝ)) :
    Except String (Mat ℝ) :=
  match dictGet planck "B" with
  | Except.error e => Except.error e
  | Except.ok B =>
  match dictGet planck "F" with
  | Except.error e => Except.error e
  | Except.ok F =>
  match dictGet planck "O" with
  | Except.error e => Except.error e
  | Except.ok O =>
  match dictGet planck "R1" with
  | Except.error e => Except.error e
  | Except.ok R1 =>
  match dictGet planck "R2" with
  | Except.error e => Except.error e
  | Except.ok R2 =>
  Except.ok (S.map (List.map (fun s => B / Real.log (R1 / (R2 * (s + O)) + F))))

/-- C truncation toward zero of a double (the first step of numpy's
float → integer cast). -/
def truncTowardZero (x : ℝ) : ℤ := if 0 ≤ x then ⌊x⌋ else ⌈x⌉

/-- Reduction of a (possibly out-of-range) integer to the unsigned
16-bit range, as the x86 cast chain used by numpy does. -/
def wrapUInt16 (n : ℤ) : ℕ := (n % 65536).toNat

/-- numpy `.astype('uint16')` applied to one double. -/
def castUInt16 (x : ℝ) : ℕ := wrapUInt16 (truncTowardZero x)

/-- `temperature_to_raw` (src/FLIR_images.py lines 209-226): read the
five Planck coefficients (same order) and compute element-wise
`R1 / (R2*(exp(B/T) - F)) - O`, cast to `uint16`. -/
def temperature_to_raw (T : Mat ℝ) (planck : List (String × ℝ)) :
    Except String (Mat ℕ) :=
  match dictGet planck "B" with
  | Except.error e => Except.error e
  | Except.ok B =>
  match dictGet planck "F" with
  | Except.error e => Except.error e
  | Except.ok F =>
  match dictGet planck "O" with
  | Except.error e => Except.error e
  | Except.ok O =>
  match dictGet planck "R1" with
  | Except.error e => Except.error e
  | Except.ok R1 =>
  match dictGet planck "R2" with
  | Except.error e => Except.error e
  | Except.ok R2 =>
  Except.ok (T.map (List.map (fun t => castUInt16 (R1 / (R2 * (Real.exp (B / t) - F)) - O))))

/-- Row-major flattening of a 2-D array (numpy `ravel`). -/
def flat {α : Type} (m : Mat α) : List α := m.foldr (fun r acc => r ++ acc) []

/-- numpy `.min()`: reduction without identity, `ValueError` on a
zero-size array. -/
def npMin (m : Mat ℝ) : Except String ℝ :=
  match flat m with
  | [] => Except.error "zero-size array to reduction operation minimum which has no identity"
  | x :: xs => Except.ok (xs.foldl min x)

/-- numpy `.max()`: reduction without identity, `ValueError` on a
zero-size array. -/
def npMax (m : Mat ℝ) : Except String ℝ :=
  match flat m with
  | [] => Except.error "zero-size array to reduction operation maximum which has no identity"
  | x :: xs => Except.ok (xs.foldl max x)

/-- numpy `.mean()` (on the nonempty arrays reached by `T_stats`). -/
def npMean (m : Mat ℝ) : ℝ := (flat m).sum / (flat m).length

/-- numpy `.std()` (population standard deviation, `ddof = 0`). -/
def npStd (m : Mat ℝ) : ℝ :=
  Real.sqrt ((((flat m).map (fun x => (x - npMean m) ^ 2)).sum) / (flat m).length)

/-- Insertion into a sorted list of reals. -/
def insertSorted (x : ℝ) : List ℝ → List ℝ
  | [] => [x]
  | y :: t => if x ≤ y then x :: y :: t else y :: insertSorted x t

/-- Sort a list of reals ascending. -/
def sortReal (l : List ℝ) : List ℝ := l.foldr insertSorted []

/-- numpy `np.median` (on the nonempty arrays reached by `T_stats`). -/
def npMedian (m : Mat ℝ) : ℝ :=
  let l := sortReal (flat m)
  let n := l.length
  if n % 2 = 1 then l.getD (n / 2) 0
  else (l.getD (n / 2 - 1) 0 + l.getD (n / 2) 0) / 2

/-- The `T_stats` dict built in `FLIR_image.__init__`
(src/FLIR_images.py lines 58-62).  The dict values are evaluated in
source order, so the `min` reduction runs first and its `ValueError` on
a zero-size array aborts the construction. -/
def T_stats (temp : Mat ℝ) : Except String (List (String × ℝ)) :=
  match npMin temp with
  | Except.error e => Except.error e
  | Except.ok tmin =>
  match npMax temp with
  | Except.error e => Except.error e
  | Except.ok tmax =>
  Except.ok [("T_min", tmin), ("T_max", tmax), ("T_mean", npMean temp),
             ("T_std", npStd temp), ("T_med", npMedian temp)]

/-- Coefficients used by the counterexample to claim C5:
`R1 = 1, B = 1428, F = 1, O = 0, R2 = 1`. -/
def cexCoeffsPos : List (String × ℝ) :=
  [("R1", 1), ("B", 1428), ("F", 1), ("O", 0), ("R2", 1)]

/-- Coefficients used by the counterexample to claim C6:
`R1 = 1, B = 1428, F = 2, O = 0, R2 = 1` (all within the coefficient
ranges quoted in the source docstring, where `F` ranges over 0.5-2). -/
def cexCoeffsMono : List (String × ℝ) :=
  [("R1", 1), ("B", 1428), ("F", 2), ("O", 0), ("R2", 1)]

/-- Coefficients used by the counterexample to claim C3: the example
constants with `B` replaced by `0`. -/
def cexCoeffsB0 : List (String × ℝ) :=
  [("R1", 385517), ("B", 0), ("F", 1), ("O", -72), ("R2", 1)]

end

theorem dictLookup_dictInsert_self {α : Type} (d : List (String × α)) (k : String) (v : α) :
    dictLookup (dictInsert d k v) k = some v := by
  induction d with
  | nil => simp [dictInsert, dictLookup]
  | cons kv t ih =>
      obtain ⟨k0, w⟩ := kv
      by_cases h : k0 = k
      · simp [dictInsert, h, dictLookup]
      · simp [dictInsert, h, dictLookup, ih]

theorem dictLookup_dictInsert_ne {α : Type} (d : List (String × α)) (k k' : String) (v : α)
    (h : k ≠ k') : dictLookup (dictInsert d k v) k' = dictLookup d k' := by
  induction d with
  | nil => simp [dictInsert, dictLookup, h]
  | cons kv t ih =>
      obtain ⟨k0, w⟩ := kv
      by_cases h0 : k0 = k
      · subst h0
        simp [dictInsert, dictLookup, h]
      · simp [dictInsert, h0, dictLookup, ih]

/-- Claim C9.  `FLIR_image.get_position` first overwrites the three GPS
metadata entries with `None` and only then reads them back, so for
every metadata mapping the returned position is exactly
`{latitude: None, longitude: None, altitude: None}`, and the metadata
mapping handed back has all three GPS entries set to `None` (the stored
metadata is mutated), regardless of any GPS data present. -/
theorem get_position_always_none {α : Type} (metadata : List (String × Option α)) :
    (get_position metadata).2 =
      [("latitude", none), ("longitude", none), ("altitude", none)] ∧
    dictLookup (get_position metadata).1 "EXIF:GPSLatitude" = some none ∧
    dictLookup (get_position metadata).1 "EXIF:GPSLongitude" = some none ∧
    dictLookup (get_position metadata).1 "EXIF:GPSAltitude" = some none := by
  have hAltLat : ("EXIF:GPSAltitude" : String) ≠ "EXIF:GPSLatitude" := by decide
  have hAltLong : ("EXIF:GPSAltitude" : String) ≠ "EXIF:GPSLongitude" := by decide
  have hLongLat : ("EXIF:GPSLongitude" : String) ≠ "EXIF:GPSLatitude" := by decide
  have h1 : dictLookup (dictInsert (dictInsert (dictInsert metadata
      "EXIF:GPSLatitude" none) "EXIF:GPSLongitude" none) "EXIF:GPSAltitude" none)
      "EXIF:GPSLatitude" = some none := by
    rw [dictLookup_dictInsert_ne _ _ _ _ hAltLat,
        dictLookup_dictInsert_ne _ _ _ _ hLongLat,
        dictLookup_dictInsert_self]
  have h2 : dictLookup (dictInsert (dictInsert (dictInsert metadata
      "EXIF:GPSLatitude" none) "EXIF:GPSLongitude" none) "EXIF:GPSAltitude" none)
      "EXIF:GPSLongitude" = some none := by
    rw [dictLookup_dictInsert_ne _ _ _ _ hAltLong, dictLookup_dictInsert_self]
  have h3 : dictLookup (dictInsert (dictInsert (dictInsert metadata
      "EXIF:GPSLatitude" none) "EXIF:GPSLongitude" none) "EXIF:GPSAltitude" none)
      "EXIF:GPSAltitude" = some none := dictLookup_dictInsert_self _ _ _
  refine ⟨?_, ?_, ?_, ?_⟩ <;>
    simp [get_position, h1, h2, h3, dictInsert]

/-- Claim C8.  The descriptive-statistics computation of
`FLIR_image.__init__` on a zero-area temperature matrix fails hard with
the `ValueError` of the `min` reduction (the spec's `EmptyMatrix`
error): no statistics mapping is returned (in particular no silent
NaN-filled result). -/
theorem T_stats_empty_error (temp : Mat ℝ) (h : flat temp = []) :
    T_stats temp =
      Except.error "zero-size array to reduction operation minimum which has no identity" := by
  simp [T_stats, npMin, h]

/-- Witness for C8: the concrete zero-area matrix `[]`. -/
theorem T_stats_empty_error_witness :
    flat ([] : Mat ℝ) = [] ∧
    T_stats ([] : Mat ℝ) =
      Except.error "zero-size array to reduction operation minimum which has no identity" :=
  ⟨rfl, T_stats_empty_error [] rfl⟩

/-- Claim C1.  For every input matrix `S` and coefficient mapping
containing `R1`, `R2`, `B`, `F`, `O`, `raw_to_temperature` returns
element-wise `B / log(R1 / (R2*(S + O)) + F)`, and the output has the
same shape (row count and row lengths) as the input. -/
theorem raw_to_temperature_formula (S : Mat ℝ) (pl : List (String × ℝ)) (B F O R1 R2 : ℝ)
    (hB : dictGet pl "B" = Except.ok B) (hF : dictGet pl "F" = Except.ok F)
    (hO : dictGet pl "O" = Except.ok O) (hR1 : dictGet pl "R1" = Except.ok R1)
    (hR2 : dictGet pl "R2" = Except.ok R2) :
    raw_to_temperature S pl =
      Except.ok (S.map (List.map (fun s => B / Real.log (R1 / (R2 * (s + O)) + F)))) ∧
    (S.map (List.map (fun s => B / Real.log (R1 / (R2 * (s + O)) + F)))).length = S.length ∧
    (S.map (List.map (fun s => B / Real.log (R1 / (R2 * (s + O)) + F)))).map List.length
      = S.map List.length := by
  refine ⟨?_, by simp, ?_⟩
  · simp [raw_to_temperature, hB, hF, hO, hR1, hR2]
  · simp [List.map_map, Function.comp]

/-- Witness for C1: the module's example constants and a concrete
2-element matrix. -/
theorem raw_to_temperature_formula_witness :
    dictGet planck "B" = Except.ok 1428 ∧
    dictGet planck "F" = Except.ok 1 ∧
    dictGet planck "O" = Except.ok (-72) ∧
    dictGet planck "R1" = Except.ok 385517 ∧
    dictGet planck "R2" = Except.ok 1 ∧
    (raw_to_temperature [[8192, 100]] planck =
      Except.ok (([[8192, 100]] : Mat ℝ).map
        (List.map (fun s => (1428 : ℝ) / Real.log (385517 / (1 * (s + -72)) + 1)))) ∧
     (([[8192, 100]] : Mat ℝ).map
        (List.map (fun s => (1428 : ℝ) / Real.log (385517 / (1 * (s + -72)) + 1)))).length
       = ([[8192, 100]] : Mat ℝ).length ∧
     (([[8192, 100]] : Mat ℝ).map
        (List.map (fun s => (1428 : ℝ) / Real.log (385517 / (1 * (s + -72)) + 1)))).map List.length
       = ([[8192, 100]] : Mat ℝ).map List.length) :=
  ⟨rfl, rfl, rfl, rfl, rfl,
    raw_to_temperature_formula [[8192, 100]] planck 1428 1 (-72) 385517 1 rfl rfl rfl rfl rfl⟩

/-- Claim C2.  For every temperature matrix `T` and coefficient mapping
containing `R1`, `R2`, `B`, `F`, `O`, `temperature_to_raw` computes
element-wise `R1 / (R2*(exp(B/T) - F)) - O` and quantizes each element
to an unsigned 16-bit integer (every output is `< 65536`) by truncating
toward zero: on the representable range `[0, 65536)` the quantized
value `q` satisfies `q ≤ x` and `x - 1 < q`, i.e. the cast always
truncates and never rounds up. -/
theorem temperature_to_raw_formula (T : Mat ℝ) (pl : List (String × ℝ)) (B F O R1 R2 : ℝ)
    (hB : dictGet pl "B" = Except.ok B) (hF : dictGet pl "F" = Except.ok F)
    (hO : dictGet pl "O" = Except.ok O) (hR1 : dictGet pl "R1" = Except.ok R1)
    (hR2 : dictGet pl "R2" = Except.ok R2) :
    temperature_to_raw T pl =
      Except.ok (T.map (List.map (fun t => castUInt16 (R1 / (R2 * (Real.exp (B / t) - F)) - O)))) ∧
    (∀ x : ℝ, castUInt16 x < 65536) ∧
    (∀ x : ℝ, 0 ≤ x → x < 65536 →
      ((castUInt16 x : ℝ) ≤ x ∧ x - 1 < (castUInt16 x : ℝ))) := by
  refine ⟨?_, ?_, ?_⟩
  · simp [temperature_to_raw, hB, hF, hO, hR1, hR2]
  · intro x
    have h1 : truncTowardZero x % 65536 < 65536 := Int.emod_lt_of_pos _ (by norm_num)
    have h2 : 0 ≤ truncTowardZero x % 65536 := Int.emod_nonneg _ (by norm_num)
    simp only [castUInt16, wrapUInt16]
    omega
  · intro x hx0 hx
    have ht : truncTowardZero x = ⌊x⌋ := if_pos hx0
    have hf0 : 0 ≤ ⌊x⌋ := Int.floor_nonneg.mpr hx0
    have hflt : ⌊x⌋ < 65536 := by
      rw [Int.floor_lt]
      exact_mod_cast hx
    have hemod : ⌊x⌋ % 65536 = ⌊x⌋ := Int.emod_eq_of_lt hf0 hflt
    have hcast : ((castUInt16 x : ℕ) : ℝ) = ((⌊x⌋ : ℤ) : ℝ) := by
      simp only [castUInt16, wrapUInt16, ht, hemod]
      exact_mod_cast Int.toNat_of_nonneg hf0
    constructor
    · rw [hcast]; exact Int.floor_le x
    · rw [hcast]; exact Int.sub_one_lt_floor x

/-- Witness for C2: the module's example constants and the temperature
matrix `[[300]]`. -/
theorem temperature_to_raw_formula_witness :
    dictGet planck "B" = Except.ok 1428 ∧
    dictGet planck "F" = Except.ok 1 ∧
    dictGet planck "O" = Except.ok (-72) ∧
    dictGet planck "R1" = Except.ok 385517 ∧
    dictGet planck "R2" = Except.ok 1 ∧
    (temperature_to_raw [[300]] planck =
      Except.ok (([[300]] : Mat ℝ).map
        (List.map (fun t => castUInt16 ((385517 : ℝ) / (1 * (Real.exp (1428 / t) - 1)) - -72)))) ∧
     (∀ x : ℝ, castUInt16 x < 65536) ∧
     (∀ x : ℝ, 0 ≤ x → x < 65536 →
       ((castUInt16 x : ℝ) ≤ x ∧ x - 1 < (castUInt16 x : ℝ)))) :=
  ⟨rfl, rfl, rfl, rfl, rfl,
    temperature_to_raw_formula [[300]] planck 1428 1 (-72) 385517 1 rfl rfl rfl rfl rfl⟩

/-- Claim C7.  If any of the five coefficients `B`, `F`, `O`, `R1`, `R2`
is absent from the extracted coefficient mapping, the
extraction-and-conversion pipeline
`raw_to_temperature S (get_planck_coeffs metadata)` fails hard with the
`KeyError` of the missing coefficient (the spec's `MissingCoefficients`
error): no partial or defaulted result is returned. -/
theorem pipeline_missing_coefficient (md : List (String × ℝ)) (S : Mat ℝ)
    (h : dictLookup (get_planck_coeffs md) "B" = none ∨
         dictLookup (get_planck_coeffs md) "F" = none ∨
         dictLookup (get_planck_coeffs md) "O" = none ∨
         dictLookup (get_planck_coeffs md) "R1" = none ∨
         dictLookup (get_planck_coeffs md) "R2" = none) :
    ∃ key : String, raw_to_temperature S (get_planck_coeffs md) = Except.error key ∧
      dictLookup (get_planck_coeffs md) key = none := by
  cases hB : dictLookup (get_planck_coeffs md) "B" with
  | none => exact ⟨"B", by simp [raw_to_temperature, dictGet, hB], hB⟩
  | some b =>
  cases hF : dictLookup (get_planck_coeffs md) "F" with
  | none => exact ⟨"F", by simp [raw_to_temperature, dictGet, hB, hF], hF⟩
  | some f =>
  cases hO : dictLookup (get_planck_coeffs md) "O" with
  | none => exact ⟨"O", by simp [raw_to_temperature, dictGet, hB, hF, hO], hO⟩
  | some o =>
  cases hR1 : dictLookup (get_planck_coeffs md) "R1" with
  | none => exact ⟨"R1", by simp [raw_to_temperature, dictGet, hB, hF, hO, hR1], hR1⟩
  | some r1 =>
  cases hR2 : dictLookup (get_planck_coeffs md) "R2" with
  | none => exact ⟨"R2", by simp [raw_to_temperature, dictGet, hB, hF, hO, hR1, hR2], hR2⟩
  | some r2 =>
      rcases h with h | h | h | h | h <;> simp_all

/-- Witness for C7: metadata carrying only the `R1` Planck tag; the
pipeline stops with the `KeyError` for the missing `B`. -/
theorem pipeline_missing_coefficient_witness :
    dictLookup (get_planck_coeffs [("APP1:PlanckR1", (385517 : ℝ))]) "B" = none ∧
    (∃ key : String,
      raw_to_temperature [[0]] (get_planck_coeffs [("APP1:PlanckR1", (385517 : ℝ))])
        = Except.error key ∧
      dictLookup (get_planck_coeffs [("APP1:PlanckR1", (385517 : ℝ))]) key = none) :=
  ⟨rfl, pipeline_missing_coefficient [("APP1:PlanckR1", (385517 : ℝ))] [[0]] (Or.inl rfl)⟩

/-- Claim C5 (amended).  The claim's positivity fails as stated (see the
counterexample); it holds after adding `0 < B` and strengthening the
domain condition `R1/(R2*(S+O)) + F > 0` to `> 1` (so that the
logarithm is positive): under those hypotheses
`raw_to_temperature` produces `B / log(R1/(R2*(S+O)) + F)`, which is
strictly positive (and a real number, hence finite). -/
theorem raw_to_temperature_positive (s : ℝ) (pl : List (String × ℝ)) (B F O R1 R2 : ℝ)
    (hBl : dictGet pl "B" = Except.ok B) (hFl : dictGet pl "F" = Except.ok F)
    (hOl : dictGet pl "O" = Except.ok O) (hR1l : dictGet pl "R1" = Except.ok R1)
    (hR2l : dictGet pl "R2" = Except.ok R2)
    (hR2ne : R2 ≠ 0) (hBpos : 0 < B)
    (harg : 1 < R1 / (R2 * (s + O)) + F) :
    raw_to_temperature [[s]] pl = Except.ok [[B / Real.log (R1 / (R2 * (s + O)) + F)]] ∧
    0 < B / Real.log (R1 / (R2 * (s + O)) + F) := by
  refine ⟨by simp [raw_to_temperature, hBl, hFl, hOl, hR1l, hR2l], ?_⟩
  exact div_pos hBpos (Real.log_pos harg)

/-- Witness for C5 (amended): the module's example constants at
`S = 8192`. -/
theorem raw_to_temperature_positive_witness :
    ((1 : ℝ) ≠ 0) ∧ (0 < (1428 : ℝ)) ∧
    (1 < (385517 : ℝ) / (1 * (8192 + -72)) + 1) ∧
    (raw_to_temperature [[8192]] planck
       = Except.ok [[(1428 : ℝ) / Real.log (385517 / (1 * (8192 + -72)) + 1)]] ∧
     0 < (1428 : ℝ) / Real.log (385517 / (1 * (8192 + -72)) + 1)) :=
  ⟨by norm_num, by norm_num, by norm_num,
    raw_to_temperature_positive 8192 planck 1428 1 (-72) 385517 1 rfl rfl rfl rfl rfl
      (by norm_num) (by norm_num) (by norm_num)⟩

/-- Claim C5 counterexample.  The claim as stated is false: with
coefficients `R1 = 1, R2 = 1, B = 1428, F = 1, O = 0` (so `R2 ≠ 0`) and
the sample `S = -2`, the claimed domain condition holds
(`R1/(R2*(S+O)) + F = 1/2 > 0`), yet `raw_to_temperature` returns
`1428 / log(1/2)`, which is strictly negative. -/
theorem raw_to_temperature_positive_counterexample :
    dictGet cexCoeffsPos "R2" = Except.ok 1 ∧ ((1 : ℝ) ≠ 0) ∧
    (0 < (1 : ℝ) / (1 * (-2 + 0)) + 1) ∧
    raw_to_temperature [[-2]] cexCoeffsPos
      = Except.ok [[(1428 : ℝ) / Real.log (1 / (1 * (-2 + 0)) + 1)]] ∧
    (1428 : ℝ) / Real.log (1 / (1 * (-2 + 0)) + 1) < 0 := by
  refine ⟨rfl, by norm_num, by norm_num, rfl, ?_⟩
  have h1 : (1 : ℝ) / (1 * (-2 + 0)) + 1 = 1 / 2 := by norm_num
  rw [h1]
  exact div_neg_of_pos_of_neg (by norm_num) (Real.log_neg (by norm_num) (by norm_num))

/-- Claim C6 (amended).  Global monotonicity over the whole valid domain
fails as stated (see the counterexample); the transform is strictly
increasing on the physically relevant branch: for coefficients with
`R1, R2, B > 0` and samples `s1 < s2` with `0 < s1 + O` and
`R1/(R2*(s2+O)) + F > 1`, the outputs are strictly increasing. -/
theorem raw_to_temperature_strict_mono (pl : List (String × ℝ)) (B F O R1 R2 : ℝ)
    (hBl : dictGet pl "B" = Except.ok B) (hFl : dictGet pl "F" = Except.ok F)
    (hOl : dictGet pl "O" = Except.ok O) (hR1l : dictGet pl "R1" = Except.ok R1)
    (hR2l : dictGet pl "R2" = Except.ok R2)
    (hR1p : 0 < R1) (hR2p : 0 < R2) (hBp : 0 < B)
    (s1 s2 : ℝ) (h12 : s1 < s2) (h1 : 0 < s1 + O)
    (h2 : 1 < R1 / (R2 * (s2 + O)) + F) :
    raw_to_temperature [[s1]] pl = Except.ok [[B / Real.log (R1 / (R2 * (s1 + O)) + F)]] ∧
    raw_to_temperature [[s2]] pl = Except.ok [[B / Real.log (R1 / (R2 * (s2 + O)) + F)]] ∧
    B / Real.log (R1 / (R2 * (s1 + O)) + F) < B / Real.log (R1 / (R2 * (s2 + O)) + F) := by
  refine ⟨by simp [raw_to_temperature, hBl, hFl, hOl, hR1l, hR2l],
          by simp [raw_to_temperature, hBl, hFl, hOl, hR1l, hR2l], ?_⟩
  have h2O : 0 < s2 + O := by linarith
  have hd1 : 0 < R2 * (s1 + O) := mul_pos hR2p h1
  have hmul : R2 * (s1 + O) < R2 * (s2 + O) := by nlinarith
  have hdivlt : R1 / (R2 * (s2 + O)) < R1 / (R2 * (s1 + O)) :=
    div_lt_div_of_pos_left hR1p hd1 hmul
  have harg1 : R1 / (R2 * (s2 + O)) + F < R1 / (R2 * (s1 + O)) + F := by linarith
  have hlogpos : 0 < Real.log (R1 / (R2 * (s2 + O)) + F) := Real.log_pos h2
  have hloglt : Real.log (R1 / (R2 * (s2 + O)) + F) < Real.log (R1 / (R2 * (s1 + O)) + F) :=
    Real.log_lt_log (by linarith) harg1
  exact div_lt_div_of_pos_left hBp hlogpos hloglt

/-- Witness for C6 (amended): the module's example constants at
`s1 = 8192 < s2 = 8200`. -/
theorem raw_to_temperature_strict_mono_witness :
    (0 < (385517 : ℝ) ∧ 0 < (1 : ℝ) ∧ 0 < (1428 : ℝ)) ∧
    ((8192 : ℝ) < 8200) ∧ (0 < (8192 : ℝ) + -72) ∧
    (1 < (385517 : ℝ) / (1 * (8200 + -72)) + 1) ∧
    (raw_to_temperature [[8192]] planck
       = Except.ok [[(1428 : ℝ) / Real.log (385517 / (1 * (8192 + -72)) + 1)]] ∧
     raw_to_temperature [[8200]] planck
       = Except.ok [[(1428 : ℝ) / Real.log (385517 / (1 * (8200 + -72)) + 1)]] ∧
     (1428 : ℝ) / Real.log (385517 / (1 * (8192 + -72)) + 1)
       < (1428 : ℝ) / Real.log (385517 / (1 * (8200 + -72)) + 1)) :=
  ⟨⟨by norm_num, by norm_num, by norm_num⟩, by norm_num, by norm_num, by norm_num,
    raw_to_temperature_strict_mono planck 1428 1 (-72) 385517 1 rfl rfl rfl rfl rfl
      (by norm_num) (by norm_num) (by norm_num) 8192 8200 (by norm_num) (by norm_num)
      (by norm_num)⟩

/-- Claim C6 counterexample.  The claim as stated (a consistent monotone
direction over the whole physically valid range, for every coefficient
mapping) is false: with `R1 = 1, R2 = 1, B = 1428, F = 2, O = 0` (all
inside the ranges quoted in the source docstring) the samples
`-2 < 1 < 8` all satisfy the domain condition
`R1/(R2*(S+O)) + F > 0`, yet the output decreases from `S = -2` to
`S = 1` and increases from `S = 1` to `S = 8`, so it is neither
monotonically increasing nor monotonically decreasing. -/
theorem raw_to_temperature_mono_counterexample :
    ((-2 : ℝ) < 1 ∧ (1 : ℝ) < 8) ∧
    (0 < (1 : ℝ) / (1 * (-2 + 0)) + 2 ∧ 0 < (1 : ℝ) / (1 * (1 + 0)) + 2 ∧
     0 < (1 : ℝ) / (1 * (8 + 0)) + 2) ∧
    raw_to_temperature [[-2]] cexCoeffsMono
      = Except.ok [[(1428 : ℝ) / Real.log (1 / (1 * (-2 + 0)) + 2)]] ∧
    raw_to_temperature [[1]] cexCoeffsMono
      = Except.ok [[(1428 : ℝ) / Real.log (1 / (1 * (1 + 0)) + 2)]] ∧
    raw_to_temperature [[8]] cexCoeffsMono
      = Except.ok [[(1428 : ℝ) / Real.log (1 / (1 * (8 + 0)) + 2)]] ∧
    (1428 : ℝ) / Real.log (1 / (1 * (1 + 0)) + 2)
      < (1428 : ℝ) / Real.log (1 / (1 * (-2 + 0)) + 2) ∧
    (1428 : ℝ) / Real.log (1 / (1 * (1 + 0)) + 2)
      < (1428 : ℝ) / Real.log (1 / (1 * (8 + 0)) + 2) := by
  have e1 : (1 : ℝ) / (1 * (-2 + 0)) + 2 = 3 / 2 := by norm_num
  have e2 : (1 : ℝ) / (1 * (1 + 0)) + 2 = 3 := by norm_num
  have e3 : (1 : ℝ) / (1 * (8 + 0)) + 2 = 17 / 8 := by norm_num
  refine ⟨⟨by norm_num, by norm_num⟩, ⟨by norm_num, by norm_num, by norm_num⟩,
    rfl, rfl, rfl, ?_, ?_⟩
  · rw [e1, e2]
    exact div_lt_div_of_pos_left (by norm_num) (Real.log_pos (by norm_num))
      (Real.log_lt_log (by norm_num) (by norm_num))
  · rw [e2, e3]
    exact div_lt_div_of_pos_left (by norm_num) (Real.log_pos (by norm_num))
      (Real.log_lt_log (by norm_num) (by norm_num))

/-- Key algebraic fact behind the round-trip: in exact real arithmetic
the inverse formula applied to the forward formula returns the original
sample, for nonzero `R1`, `R2`, `B` and a positive logarithm argument.
(The zero-denominator conventions of `ℝ` are handled case by case.) -/
theorem roundtrip_real (B F O R1 R2 s : ℝ) (hR1 : R1 ≠ 0) (hR2 : R2 ≠ 0) (hB : B ≠ 0)
    (harg : 0 < R1 / (R2 * (s + O)) + F) :
    R1 / (R2 * (Real.exp (B / (B / Real.log (R1 / (R2 * (s + O)) + F))) - F)) - O = s := by
  set A := R1 / (R2 * (s + O)) + F with hA
  have hexp : Real.exp (B / (B / Real.log A)) = A := by
    by_cases hL : Real.log A = 0
    · have hA1 : A = 1 := by
        rcases Real.log_eq_zero.mp hL with h | h | h
        · exact absurd h (by linarith)
        · exact h
        · exact absurd h (by linarith)
      rw [hL, div_zero, div_zero, Real.exp_zero, hA1]
    · have hT : B / Real.log A ≠ 0 := div_ne_zero hB hL
      have hBT : B / (B / Real.log A) = Real.log A := by
        field_simp
      rw [hBT, Real.exp_log harg]
  rw [hexp]
  have hAF : A - F = R1 / (R2 * (s + O)) := by rw [hA]; ring
  rw [hAF]
  by_cases hD : R2 * (s + O) = 0
  · have hsO : s + O = 0 := by
      rcases mul_eq_zero.mp hD with h | h
      · exact absurd h hR2
      · exact h
    rw [hD, div_zero, mul_zero, div_zero, zero_sub]
    linarith
  · have hRD : R1 / (R2 * (s + O)) ≠ 0 := div_ne_zero hR1 hD
    field_simp
    ring

/-- The `uint16` cast of a whole number reduces it modulo 2^16. -/
theorem castUInt16_natCast (n : ℕ) : castUInt16 (n : ℝ) = n % 65536 := by
  have h0 : (0 : ℝ) ≤ (n : ℝ) := Nat.cast_nonneg n
  have ht : truncTowardZero (n : ℝ) = (n : ℤ) := by
    simp [truncTowardZero, h0, Int.floor_natCast]
  simp only [castUInt16, wrapUInt16, ht]
  omega

/-- Claim C3 (amended).  The claimed round-trip fails as stated (see the
counterexample); it holds after requiring `S` to be a whole number below
2^16 (the `uint16` cast wraps larger values) and the coefficients
`R1`, `R2`, `B` to be nonzero: then
`temperature_to_raw (raw_to_temperature S c) c` returns exactly `S`
(in particular within the claimed ±1 count). -/
theorem roundtrip_exact (n : ℕ) (pl : List (String × ℝ)) (B F O R1 R2 : ℝ)
    (hBl : dictGet pl "B" = Except.ok B) (hFl : dictGet pl "F" = Except.ok F)
    (hOl : dictGet pl "O" = Except.ok O) (hR1l : dictGet pl "R1" = Except.ok R1)
    (hR2l : dictGet pl "R2" = Except.ok R2)
    (hn : n < 65536) (hR1 : R1 ≠ 0) (hR2 : R2 ≠ 0) (hB : B ≠ 0)
    (harg : 0 < R1 / (R2 * ((n : ℝ) + O)) + F) :
    raw_to_temperature [[(n : ℝ)]] pl
      = Except.ok [[B / Real.log (R1 / (R2 * ((n : ℝ) + O)) + F)]] ∧
    temperature_to_raw [[B / Real.log (R1 / (R2 * ((n : ℝ) + O)) + F)]] pl
      = Except.ok [[n]] := by
  refine ⟨by simp [raw_to_temperature, hBl, hFl, hOl, hR1l, hR2l], ?_⟩
  have key := roundtrip_real B F O R1 R2 (n : ℝ) hR1 hR2 hB harg
  have hstep : temperature_to_raw [[B / Real.log (R1 / (R2 * ((n : ℝ) + O)) + F)]] pl
      = Except.ok [[castUInt16
          (R1 / (R2 * (Real.exp (B / (B / Real.log (R1 / (R2 * ((n : ℝ) + O)) + F))) - F)) - O)]] := by
    simp [temperature_to_raw, hBl, hFl, hOl, hR1l, hR2l]
  rw [hstep, key, castUInt16_natCast, Nat.mod_eq_of_lt hn]

/-- Witness for C3 (amended): the module's example constants at
`S = 8192`. -/
theorem roundtrip_exact_witness :
    (8192 < 65536 ∧ (385517 : ℝ) ≠ 0 ∧ (1 : ℝ) ≠ 0 ∧ (1428 : ℝ) ≠ 0) ∧
    (0 < (385517 : ℝ) / (1 * (((8192 : ℕ) : ℝ) + -72)) + 1) ∧
    (raw_to_temperature [[((8192 : ℕ) : ℝ)]] planck
       = Except.ok [[(1428 : ℝ) / Real.log (385517 / (1 * (((8192 : ℕ) : ℝ) + -72)) + 1)]] ∧
     temperature_to_raw [[(1428 : ℝ) / Real.log (385517 / (1 * (((8192 : ℕ) : ℝ) + -72)) + 1)]]
       planck = Except.ok [[8192]]) :=
  ⟨⟨by norm_num, by norm_num, by norm_num, by norm_num⟩, by push_cast; norm_num,
    roundtrip_exact 8192 planck 1428 1 (-72) 385517 1 rfl rfl rfl rfl rfl
      (by norm_num) (by norm_num) (by norm_num) (by norm_num) (by push_cast; norm_num)⟩

/-- Claim C3 counterexample.  The claim as stated is false.  Two
violations, each satisfying the claim's stated domain conditions
(`R2 ≠ 0` and `R1/(R2*(S+O)) + F > 0`): (1) with the module's example
constants and `S = 100000`, the exact round-trip value 100000 is
wrapped by the `uint16` cast to 34464, which differs from `S` by far
more than 1 count; (2) with the example constants except `B = 0`, the
sample `S = 8192` comes back as 72. -/
theorem roundtrip_counterexample :
    (dictGet planck "R2" = Except.ok 1 ∧ (1 : ℝ) ≠ 0 ∧
     0 < (385517 : ℝ) / (1 * (100000 + -72)) + 1) ∧
    raw_to_temperature [[100000]] planck
      = Except.ok [[(1428 : ℝ) / Real.log (385517 / (1 * (100000 + -72)) + 1)]] ∧
    temperature_to_raw [[(1428 : ℝ) / Real.log (385517 / (1 * (100000 + -72)) + 1)]] planck
      = Except.ok [[34464]] ∧
    ((100000 : ℤ) - 34464 > 1) ∧
    (dictGet cexCoeffsB0 "R2" = Except.ok 1 ∧
     0 < (385517 : ℝ) / (1 * (8192 + -72)) + 1) ∧
    raw_to_temperature [[8192]] cexCoeffsB0
      = Except.ok [[(0 : ℝ) / Real.log (385517 / (1 * (8192 + -72)) + 1)]] ∧
    temperature_to_raw [[(0 : ℝ) / Real.log (385517 / (1 * (8192 + -72)) + 1)]] cexCoeffsB0
      = Except.ok [[72]] ∧
    ((8192 : ℤ) - 72 > 1) := by
  have hc1 : castUInt16 (100000 : ℝ) = 34464 := by
    have h := castUInt16_natCast 100000
    norm_num at h
    exact h
  have hc2 : castUInt16 (72 : ℝ) = 72 := by
    have h := castUInt16_natCast 72
    norm_num at h
    exact h
  have key := roundtrip_real 1428 1 (-72) 385517 1 100000 (by norm_num) (by norm_num)
    (by norm_num) (by norm_num)
  have hwrap : temperature_to_raw
      [[(1428 : ℝ) / Real.log (385517 / (1 * (100000 + -72)) + 1)]] planck
      = Except.ok [[34464]] := by
    have e1 : temperature_to_raw
        [[(1428 : ℝ) / Real.log (385517 / (1 * (100000 + -72)) + 1)]] planck
        = Except.ok [[castUInt16 ((385517 : ℝ) /
            (1 * (Real.exp (1428 / ((1428 : ℝ) /
              Real.log (385517 / (1 * (100000 + -72)) + 1))) - 1)) - -72)]] := rfl
    rw [e1, key, hc1]
  have hB0val : (385517 : ℝ) /
      (1 * (Real.exp (0 / ((0 : ℝ) / Real.log (385517 / (1 * (8192 + -72)) + 1))) - 1)) - -72
      = 72 := by
    norm_num [zero_div, div_zero, Real.exp_zero]
  have hB0 : temperature_to_raw
      [[(0 : ℝ) / Real.log (385517 / (1 * (8192 + -72)) + 1)]] cexCoeffsB0
      = Except.ok [[72]] := by
    have e2 : temperature_to_raw
        [[(0 : ℝ) / Real.log (385517 / (1 * (8192 + -72)) + 1)]] cexCoeffsB0
        = Except.ok [[castUInt16 ((385517 : ℝ) /
            (1 * (Real.exp (0 / ((0 : ℝ) /
              Real.log (385517 / (1 * (8192 + -72)) + 1))) - 1)) - -72)]] := rfl
    rw [e2, hB0val, hc2]
  exact ⟨⟨rfl, by norm_num, by norm_num⟩, rfl, hwrap, by norm_num,
    ⟨rfl, by norm_num⟩, rfl, hB0, by norm_num⟩

/-- Lower bound for the exponential on `[-4, 0]` by a fourth power. -/
theorem exp_neg_lower (x : ℝ) (h0 : 0 ≤ x) (h4 : x ≤ 4) :
    (1 - x / 4) ^ 4 ≤ Real.exp (-x) := by
  have h1 : 0 ≤ 1 - x / 4 := by linarith
  have h2 : 1 - x / 4 ≤ Real.exp (-(x / 4)) := by
    have := Real.add_one_le_exp (-(x / 4))
    linarith
  have h3 : (1 - x / 4) ^ 4 ≤ Real.exp (-(x / 4)) ^ 4 := pow_le_pow_left₀ h1 h2 4
  have h5 : Real.exp (-(x / 4)) ^ 4 = Real.exp (-x) := by
    rw [← Real.exp_nat_mul]
    congr 1
    push_cast
    ring
  rw [← h5]
  exact h3

/-- Upper bound for the exponential on `(-∞, 0]` by an inverse square. -/
theorem exp_neg_upper (x : ℝ) (h0 : 0 ≤ x) :
    Real.exp (-x) ≤ 1 / (1 + x / 2) ^ 2 := by
  have hp : (0 : ℝ) < 1 + x / 2 := by linarith
  have h2 : 1 + x / 2 ≤ Real.exp (x / 2) := by
    have := Real.add_one_le_exp (x / 2)
    linarith
  have h3 : (1 + x / 2) ^ 2 ≤ Real.exp (x / 2) ^ 2 := pow_le_pow_left₀ (le_of_lt hp) h2 2
  have h4 : Real.exp (x / 2) ^ 2 = Real.exp x := by
    rw [← Real.exp_nat_mul]
    congr 1
    push_cast
    ring
  have h5 : (1 + x / 2) ^ 2 ≤ Real.exp x := h4 ▸ h3
  rw [Real.exp_neg, inv_eq_one_div]
  exact one_div_le_one_div_of_le (by positivity) h5

/-- Rational lower bound for `e^4` from the nine-digit bound on `e`. -/
theorem exp_four_lower : (54.598150 : ℝ) ≤ Real.exp 4 := by
  have h1 : (2.7182818283 : ℝ) ^ 4 ≤ Real.exp 1 ^ 4 :=
    pow_le_pow_left₀ (by norm_num) (le_of_lt Real.exp_one_gt_d9) 4
  have h2 : Real.exp 1 ^ 4 = Real.exp 4 := by
    rw [← Real.exp_nat_mul]
    norm_num
  calc (54.598150 : ℝ) ≤ (2.7182818283 : ℝ) ^ 4 := by norm_num
    _ ≤ Real.exp 1 ^ 4 := h1
    _ = Real.exp 4 := h2

/-- Rational upper bound for `e^4` from the nine-digit bound on `e`. -/
theorem exp_four_upper : Real.exp 4 ≤ (54.5981501 : ℝ) := by
  have h1 : Real.exp 1 ^ 4 ≤ (2.7182818286 : ℝ) ^ 4 :=
    pow_le_pow_left₀ (le_of_lt (Real.exp_pos 1)) (le_of_lt Real.exp_one_lt_d9) 4
  have h2 : Real.exp 1 ^ 4 = Real.exp 4 := by
    rw [← Real.exp_nat_mul]
    norm_num
  calc Real.exp 4 = Real.exp 1 ^ 4 := h2.symm
    _ ≤ (2.7182818286 : ℝ) ^ 4 := h1
    _ ≤ (54.5981501 : ℝ) := by norm_num

/-- Claim C4.  With the module's example Planck constants and the single
input `S = 8192`, `raw_to_temperature` follows exactly the claimed
numeric path `1428 / ln(385517/(8192-72) + 1)`, and that value is
368.1 K up to less than half a kelvin (it lies in `(367.6, 368.6)`; its
exact decimal expansion starts 367.93...). -/
theorem raw_to_temperature_literal_scenario :
    raw_to_temperature [[8192]] planck
      = Except.ok [[(1428 : ℝ) / Real.log (385517 / (8192 - 72) + 1)]] ∧
    367.6 < (1428 : ℝ) / Real.log (385517 / (8192 - 72) + 1) ∧
    (1428 : ℝ) / Real.log (385517 / (8192 - 72) + 1) < 368.6 := by
  have harg : (385517 : ℝ) / (1 * (8192 + -72)) + 1 = 385517 / (8192 - 72) + 1 := by
    norm_num
  have hfirst : raw_to_temperature [[8192]] planck
      = Except.ok [[(1428 : ℝ) / Real.log (385517 / (8192 - 72) + 1)]] := by
    have e1 : raw_to_temperature [[8192]] planck
        = Except.ok [[(1428 : ℝ) / Real.log (385517 / (1 * (8192 + -72)) + 1)]] := rfl
    rw [e1, harg]
  have hX : (385517 : ℝ) / (8192 - 72) + 1 = 393637 / 8120 := by norm_num
  have hXpos : (0 : ℝ) < 385517 / (8192 - 72) + 1 := by norm_num
  -- upper bound:  log X < 3570/919
  have hexpU : (385517 : ℝ) / (8192 - 72) + 1 < Real.exp (3570 / 919) := by
    have he : Real.exp ((3570 : ℝ) / 919) = Real.exp 4 * Real.exp (-(106 / 919)) := by
      rw [← Real.exp_add]
      norm_num
    have hlow : ((1 : ℝ) - 106 / 919 / 4) ^ 4 ≤ Real.exp (-(106 / 919)) :=
      exp_neg_lower (106 / 919) (by norm_num) (by norm_num)
    have hmul : (54.598150 : ℝ) * ((1 : ℝ) - 106 / 919 / 4) ^ 4
        ≤ Real.exp 4 * Real.exp (-(106 / 919)) :=
      mul_le_mul exp_four_lower hlow (by positivity) (le_of_lt (Real.exp_pos 4))
    calc (385517 : ℝ) / (8192 - 72) + 1 = 393637 / 8120 := hX
      _ < (54.598150 : ℝ) * ((1 : ℝ) - 106 / 919 / 4) ^ 4 := by norm_num
      _ ≤ Real.exp 4 * Real.exp (-(106 / 919)) := hmul
      _ = Real.exp ((3570 : ℝ) / 919) := he.symm
  have hlogU : Real.log ((385517 : ℝ) / (8192 - 72) + 1) < 3570 / 919 :=
    (Real.log_lt_iff_lt_exp hXpos).mpr hexpU
  -- lower bound:  7140/1843 < log X
  have hexpL : Real.exp ((7140 : ℝ) / 1843) < (385517 : ℝ) / (8192 - 72) + 1 := by
    have he : Real.exp ((7140 : ℝ) / 1843) = Real.exp 4 * Real.exp (-(232 / 1843)) := by
      rw [← Real.exp_add]
      norm_num
    have hup : Real.exp (-(232 / 1843)) ≤ 1 / ((1 : ℝ) + 232 / 1843 / 2) ^ 2 :=
      exp_neg_upper (232 / 1843) (by norm_num)
    have hmul : Real.exp 4 * Real.exp (-(232 / 1843))
        ≤ (54.5981501 : ℝ) * (1 / ((1 : ℝ) + 232 / 1843 / 2) ^ 2) :=
      mul_le_mul exp_four_upper hup (le_of_lt (Real.exp_pos _)) (by norm_num)
    calc Real.exp ((7140 : ℝ) / 1843) = Real.exp 4 * Real.exp (-(232 / 1843)) := he
      _ ≤ (54.5981501 : ℝ) * (1 / ((1 : ℝ) + 232 / 1843 / 2) ^ 2) := hmul
      _ < 393637 / 8120 := by norm_num
      _ = (385517 : ℝ) / (8192 - 72) + 1 := hX.symm
  have hlogL : (7140 : ℝ) / 1843 < Real.log ((385517 : ℝ) / (8192 - 72) + 1) :=
    (Real.lt_log_iff_exp_lt hXpos).mpr hexpL
  have hlogpos : 0 < Real.log ((385517 : ℝ) / (8192 - 72) + 1) :=
    lt_trans (by norm_num) hlogL
  refine ⟨hfirst, ?_, ?_⟩
  · have h1 : (1428 : ℝ) / (3570 / 919)
        < 1428 / Real.log ((385517 : ℝ) / (8192 - 72) + 1) :=
      div_lt_div_of_pos_left (by norm_num) hlogpos hlogU
    calc (367.6 : ℝ) = 1428 / (3570 / 919) := by norm_num
      _ < 1428 / Real.log ((385517 : ℝ) / (8192 - 72) + 1) := h1
  · have h2 : (1428 : ℝ) / Real.log ((385517 : ℝ) / (8192 - 72) + 1)
        < 1428 / (7140 / 1843) :=
      div_lt_div_of_pos_left (by norm_num) (by norm_num) hlogL
    calc (1428 : ℝ) / Real.log ((385517 : ℝ) / (8192 - 72) + 1)
        < 1428 / (7140 / 1843) := h2
      _ = 368.6 := by norm_num

/-- Inserting a fresh key into a dict appends it. -/
theorem dictInsert_of_not_mem {α : Type} (d : List (String × α)) (k : String) (v : α)
    (h : k ∉ d.map Prod.fst) : dictInsert d k v = d ++ [(k, v)] := by
  induction d with
  | nil => rfl
  | cons kv t ih =>
      obtain ⟨k0, w⟩ := kv
      simp only [List.map_cons, List.mem_cons] at h
      push_neg at h
      obtain ⟨h1, h2⟩ := h
      simp only [dictInsert]
      rw [if_neg (fun hh => h1 hh.symm), ih h2]
      simp

/-- The accumulating loop of `get_planck_coeffs`, characterized when
the stripped names of the matching tags are pairwise distinct. -/
theorem get_planck_foldl {α : Type} (md : List (String × α)) :
    ∀ acc : List (String × α),
      ((acc.map Prod.fst) ++
        ((md.filter (fun kv => planckTag kv.1)).map (fun kv => strDrop kv.1 11))).Nodup →
      md.foldl (fun acc kv =>
          if planckTag kv.1 then dictInsert acc (strDrop kv.1 11) kv.2 else acc) acc
        = acc ++ (md.filter (fun kv => planckTag kv.1)).map (fun kv => (strDrop kv.1 11, kv.2)) := by
  induction md with
  | nil =>
      intro acc h
      simp
  | cons kv t ih =>
      intro acc h
      by_cases hp : planckTag kv.1 = true
      · have hfil : (kv :: t).filter (fun kv => planckTag kv.1)
            = kv :: t.filter (fun kv => planckTag kv.1) := List.filter_cons_of_pos hp
        rw [hfil] at h
        simp only [List.map_cons] at h
        have hnot : strDrop kv.1 11 ∉ acc.map Prod.fst := by
          intro hmem
          rcases List.nodup_append.mp h with ⟨_, _, hdisj⟩
          exact hdisj hmem (by simp)
        rw [List.foldl_cons]
        simp only [hp, if_true]
        rw [dictInsert_of_not_mem acc _ kv.2 hnot]
        have h' : (((acc ++ [(strDrop kv.1 11, kv.2)]).map Prod.fst) ++
            ((t.filter (fun kv => planckTag kv.1)).map (fun kv => strDrop kv.1 11))).Nodup := by
          simpa [List.map_append, List.append_assoc] using h
        rw [ih _ h', hfil]
        simp
      · have hpf : planckTag kv.1 = false := by simpa using hp
        have hfil : (kv :: t).filter (fun kv => planckTag kv.1)
            = t.filter (fun kv => planckTag kv.1) := by
          simp [List.filter_cons, hpf]
        rw [hfil] at h
        rw [List.foldl_cons]
        simp only [hpf, if_false, Bool.false_eq_true]
        rw [hfil]
        exact ih acc h

/-- Claim C10.  `get_planck_coeffs` selects exactly the tags whose name
contains `"planck"` case-insensitively and stores each value under the
tag name with its first 11 characters removed (characterized here under
the dict invariant that the stripped names are pairwise distinct).
Consequently a matching tag can only produce one of the coefficient
names `R1`, `R2`, `B`, `F`, `O` if its name literally begins with an
11-character prefix followed by that coefficient name: whenever the
stored key `k[11:]` is one of the five names, the original tag name `k`
decomposes as an 11-character prefix (`k[:11]`) followed by `k[11:]`. -/
theorem get_planck_coeffs_characterization {α : Type} (md : List (String × α))
    (hnd : ((md.filter (fun kv => planckTag kv.1)).map (fun kv => strDrop kv.1 11)).Nodup) :
    get_planck_coeffs md
      = (md.filter (fun kv => planckTag kv.1)).map (fun kv => (strDrop kv.1 11, kv.2)) ∧
    ∀ k : String, strDrop k 11 ∈ (["R1", "R2", "B", "F", "O"] : List String) →
      (String.mk (k.toList.take 11)).length = 11 ∧
      k = String.mk (k.toList.take 11) ++ strDrop k 11 := by
  constructor
  · have h := get_planck_foldl md []
    simp only [List.map_nil, List.nil_append] at h
    simpa [get_planck_coeffs] using h hnd
  · intro k hk
    have hlen2 : (strDrop k 11).length = k.toList.length - 11 := by
      have h : (strDrop k 11).length = (k.toList.drop 11).length := rfl
      rw [h, List.length_drop]
    have hpos : 0 < (strDrop k 11).length := by
      simp only [List.mem_cons, List.not_mem_nil, or_false] at hk
      rcases hk with h | h | h | h | h <;> rw [h] <;> decide
    have hlen : 11 < k.toList.length := by omega
    constructor
    · have h : (String.mk (k.toList.take 11)).length = (k.toList.take 11).length := rfl
      rw [h, List.length_take]
      exact min_eq_left (le_of_lt hlen)
    · have hk2 : String.mk (k.toList.take 11) ++ strDrop k 11
          = String.mk (k.toList.take 11 ++ k.toList.drop 11) := rfl
      rw [hk2, List.take_append_drop]
      rfl

/-- Witness for C10: a metadata dict with a well-formed Planck tag, a
matching tag that is too short to carry the 11-character prefix, and a
non-matching tag. -/
theorem get_planck_coeffs_characterization_witness :
    ((([("APP1:PlanckR1", (1 : ℕ)), ("Planck", 2), ("X", 3)].filter
        (fun kv => planckTag kv.1)).map (fun kv => strDrop kv.1 11)).Nodup) ∧
    get_planck_coeffs [("APP1:PlanckR1", (1 : ℕ)), ("Planck", 2), ("X", 3)]
      = ([("APP1:PlanckR1", (1 : ℕ)), ("Planck", 2), ("X", 3)].filter
          (fun kv => planckTag kv.1)).map (fun kv => (strDrop kv.1 11, kv.2)) :=
  ⟨by decide, (get_planck_coeffs_characterization
      [("APP1:PlanckR1", (1 : ℕ)), ("Planck", 2), ("X", 3)] (by decide)).1⟩
